import Mathlib

/-!
# FarmCONNECT: the route, validation and persistence contract of `server.js`

A shallow embedding of `src/server.js`.

* A field of the body of `POST /products` is what `express.json()` delivers:
  a JSON scalar (null or missing, a boolean, a number, a string) or an array of
  scalars.  A JSON number is given by its JavaScript rendering `String(x)`.
  Object-valued fields and arrays inside arrays are outside the model.
* The validators and sanitizers of `validateProduct` (`trim`, `notEmpty`,
  `escape`, `isFloat`) follow validator.js; express-validator runs them on
  every element of an array-valued field, so an empty array passes them all.
* A double is kept exactly (sign, odd mantissa, binary exponent), the two
  zeros identified; a numeral is converted by rounding to nearest, ties to
  even.
* A table is the list of its rows in rowid order.  The three tables declare
  `id INTEGER PRIMARY KEY` without `AUTOINCREMENT`, so an insert that names no
  id receives the largest rowid present plus one (1 in an empty table).  The
  model covers tables whose largest rowid is below `2^63 - 1`.
* The REAL columns of `products` turn a bound text that is a numeral into a
  double and keep any other text; `GET /products` sends a double that is not
  finite as `null` (`JSON.stringify`).
* Whether a store statement fails is decided by the environment: every route
  takes the error message of the failing statement as an `Option String`.
-/

namespace FarmConnect

/-! ## validator.js -/

/-- The characters matched by the JavaScript regular expression class `\s`. -/
def isJsSpace (c : Char) : Bool :=
  let n := c.toNat
  n = 9 || n = 10 || n = 11 || n = 12 || n = 13 || n = 32 || n = 160 ||
  n = 5760 || (8192 ≤ n && n ≤ 8202) || n = 8232 || n = 8233 || n = 8239 ||
  n = 8287 || n = 12288 || n = 65279

/-- `ltrim(str)`: `str.replace(/^\s+/g, '')`. -/
def ltrimChars (l : List Char) : List Char := l.dropWhile isJsSpace

/-- `rtrim(str)`: walk back from the last character while it matches `\s`. -/
def rtrimChars (l : List Char) : List Char := (l.reverse.dropWhile isJsSpace).reverse

/-- `trim(str)` is `rtrim(ltrim(str))`. -/
def trim (s : String) : String := ⟨rtrimChars (ltrimChars s.data)⟩

/-- `str.replace(/c/g, r)` for a single character `c`. -/
def replaceAll (c : Char) (r : String) (l : List Char) : List Char :=
  l.flatMap (fun x => if x = c then r.data else [x])

/-- `escape(str)`: the eight replacements of validator.js, applied in its order. -/
def escape (s : String) : String :=
  ⟨replaceAll (Char.ofNat 96) "&#96;"
    (replaceAll (Char.ofNat 92) "&#x5C;"
      (replaceAll '/' "&#x2F;"
        (replaceAll '>' "&gt;"
          (replaceAll '<' "&lt;"
            (replaceAll (Char.ofNat 39) "&#x27;"
              (replaceAll '"' "&quot;"
                (replaceAll '&' "&amp;" s.data)))))))⟩

/-- `isEmpty(str)` with the default options: `str.length === 0`. -/
def isEmpty (s : String) : Bool := s.data.isEmpty

/-- A text of the shape accepted by the regular expression of `isFloat`,
`^[-+]?([0-9]+)?(\.[0-9]*)?([eE][+-]?[0-9]+)?$`, split into its groups. -/
structure FloatLit where
  /-- the sign group is `-` -/
  neg : Bool
  /-- the digits before the point -/
  intDigits : List Char
  /-- the digits after the point, when the point group is present -/
  fracDigits : Option (List Char)
  /-- the exponent group: whether its sign is `-`, and its digits -/
  exponent : Option (Bool × List Char)
deriving DecidableEq, Repr

/-- The longest run of `[0-9]` at the head of a text, and the rest. -/
def spanDigits (l : List Char) : List Char × List Char := l.span Char.isDigit

/-- The exponent group `[eE][+-]?[0-9]+` followed by the end of the text. -/
def matchExponent : List Char → Option (Option (Bool × List Char))
  | [] => some none
  | c :: rest =>
    if c = 'e' || c = 'E' then
      let (neg, rest1) :=
        match rest with
        | '-' :: r => (true, r)
        | '+' :: r => (false, r)
        | r => (false, r)
      let (ds, rest2) := spanDigits rest1
      if ds ≠ [] ∧ rest2 = [] then some (some (neg, ds)) else none
    else none

/-- The point group `\.[0-9]*` (optional) followed by the exponent group and
the end of the text. -/
def matchFraction : List Char → Option (Option (List Char) × Option (Bool × List Char))
  | '.' :: rest =>
    let (ds, rest1) := spanDigits rest
    (matchExponent rest1).map (fun e => (some ds, e))
  | l => (matchExponent l).map (fun e => (none, e))

/-- `float.test(str)`: the groups of `str` when the whole of it matches. -/
def matchFloat (s : String) : Option FloatLit :=
  let (neg, rest) :=
    match s.data with
    | '-' :: r => (true, r)
    | '+' :: r => (false, r)
    | r => (false, r)
  let (ds, rest1) := spanDigits rest
  (matchFraction rest1).map (fun p => ⟨neg, ds, p.1, p.2⟩)

/-- The number a run of decimal digits denotes. -/
def digitsToNat (ds : List Char) : Nat :=
  ds.foldl (fun acc c => 10 * acc + (c.toNat - 48)) 0

/-- `parseFloat` reads a numeral out of a text of the `isFloat` shape only when
a digit stands before the exponent (`"e5"`, `"."`, `"-"`, `""` give `NaN`). -/
def FloatLit.hasDigits (f : FloatLit) : Bool :=
  !f.intDigits.isEmpty || !(f.fracDigits.getD []).isEmpty

/-- The digits of the numeral read as one natural number. -/
def FloatLit.mantissa (f : FloatLit) : Nat :=
  digitsToNat (f.intDigits ++ f.fracDigits.getD [])

/-- The power of ten scaling the mantissa. -/
def FloatLit.exp10 (f : FloatLit) : Int :=
  (match f.exponent with
   | none => 0
   | some (true, ds) => - (digitsToNat ds : Int)
   | some (false, ds) => (digitsToNat ds : Int)) - ((f.fracDigits.getD []).length : Int)

/-- An IEEE 754 double, the two zeros identified: `finite neg m e` is
`(-1)^neg * m * 2^e` with `m` odd, zero is `finite false 0 0`. -/
inductive Double where
  | finite (neg : Bool) (mant : Nat) (exp2 : Int)
  | infinite (neg : Bool)
deriving DecidableEq, Repr

/-- The number of binary digits of `n` (`fuel` bounds the halvings). -/
def bitLengthAux : Nat → Nat → Nat
  | 0, _ => 0
  | fuel + 1, n => if n = 0 then 0 else bitLengthAux fuel (n / 2) + 1

/-- The number of binary digits of `n`: `0` for `0`, else `floor (log2 n) + 1`. -/
def bitLength (n : Nat) : Nat := bitLengthAux n n

/-- Divide the factors two out of a mantissa (`fuel` bounds the halvings). -/
def stripTwos : Nat → Nat → Int → Nat × Int
  | 0, m, e => (m, e)
  | fuel + 1, m, e => if m % 2 = 0 then stripTwos fuel (m / 2) (e + 1) else (m, e)

/-- The double `(-1)^neg * m * 2^e` for `m < 2^64`, in the form with an odd
mantissa. -/
def Double.ofScaled (neg : Bool) (m : Nat) (e : Int) : Double :=
  if m = 0 then Double.finite false 0 0
  else Double.finite neg (stripTwos 64 m e).1 (stripTwos 64 m e).2

/-- The double nearest to `num / den` (`num`, `den` positive), ties to even,
with the sign `neg`: 53 significant bits, no exponent below `-1074`, infinite
from `2^1024` on. -/
def roundRatio (neg : Bool) (num den : Nat) : Double :=
  let k0 : Int := (bitLength num : Int) - (bitLength den : Int)
  let k : Int :=
    if (if 0 ≤ k0 then den * 2 ^ k0.toNat ≤ num else den ≤ num * 2 ^ (-k0).toNat)
    then k0 else k0 - 1
  let p : Int := max (k - 52) (-1074)
  let a : Nat := if 0 ≤ p then num else num * 2 ^ (-p).toNat
  let b : Nat := if 0 ≤ p then den * 2 ^ p.toNat else den
  let q := a / b
  let r := a % b
  let rounded := if b < 2 * r ∨ (2 * r = b ∧ q % 2 = 1) then q + 1 else q
  if 1024 < (bitLength rounded : Int) + p then Double.infinite neg
  else Double.ofScaled neg rounded p

/-- The double a decimal numeral `(-1)^neg * m * 10^e` denotes. -/
def decimalToDouble (neg : Bool) (m : Nat) (e : Int) : Double :=
  if m = 0 then Double.finite false 0 0
  else if 0 ≤ e then roundRatio neg (m * 10 ^ e.toNat) 1
  else roundRatio neg m (10 ^ (-e).toNat)

/-- `parseFloat(str)` for a text of the `isFloat` shape; `none` is `NaN`. -/
def FloatLit.value (f : FloatLit) : Option Double :=
  if f.hasDigits then some (decimalToDouble f.neg f.mantissa f.exp10) else none

/-- The comparison `x >= 0` on doubles. -/
def Double.geZero : Double → Bool
  | Double.finite neg _ _ => !neg
  | Double.infinite neg => !neg

/-- How the double `parseFloat(str)` compares with `0`. -/
inductive NumClass where
  | nan
  | negative
  | nonNegative
deriving DecidableEq, Repr

/-- The class of `parseFloat(str)` for a text of the `isFloat` shape; a
negative numeral that rounds to zero is not below zero. -/
def FloatLit.numClass (f : FloatLit) : NumClass :=
  match f.value with
  | none => NumClass.nan
  | some d => if d.geZero then NumClass.nonNegative else NumClass.negative

/-- `isFloat(str, { min: 0 })`: `str` is none of the five excluded texts,
matches the float expression, and `parseFloat(str) >= 0`. -/
def isFloatMin0 (s : String) : Bool :=
  if s = "" || s = "." || s = "," || s = "-" || s = "+" then false
  else
    match matchFloat s with
    | none => false
    | some f =>
      match f.value with
      | none => false
      | some d => d.geZero

/-- How the number written by `str` compares with `0`: `none` when `str` does
not have the float shape, else the class of `parseFloat(str)`. -/
def floatClass (s : String) : Option NumClass := (matchFloat s).map FloatLit.numClass

/-- The double `parseFloat(str)` for a text of the float shape that writes a
number. -/
def numberOf (s : String) : Option Double := (matchFloat s).bind FloatLit.value

/-! ## Request bodies -/

/-- A JSON scalar of a request body.  `null` also stands for a missing field;
a number is given by its rendering `String(x)`. -/
inductive JsonScalar where
  | null
  | bool (b : Bool)
  | number (rendering : String)
  | string (s : String)
deriving DecidableEq, Repr

/-- The text of a scalar, as express-validator's `toString` and
`Array.prototype.join` give it: empty for null. -/
def JsonScalar.toStr : JsonScalar → String
  | JsonScalar.null => ""
  | JsonScalar.bool true => "true"
  | JsonScalar.bool false => "false"
  | JsonScalar.number t => t
  | JsonScalar.string s => s

/-- A field of a request body: a scalar or an array of scalars. -/
inductive JsonField where
  | scalar (v : JsonScalar)
  | array (items : List JsonScalar)
deriving DecidableEq, Repr

/-- The values a validator is run on:
`Array.isArray(value) ? value : [value]`. -/
def JsonField.items : JsonField → List JsonScalar
  | JsonField.scalar v => [v]
  | JsonField.array l => l

/-- What a sanitizer leaves in `req.body`: a string for a scalar field, an
array of strings for an array-valued one. -/
inductive TextParam where
  | one (s : String)
  | many (l : List String)
deriving DecidableEq, Repr

/-- The strings of a sanitized field. -/
def TextParam.items : TextParam → List String
  | TextParam.one s => [s]
  | TextParam.many l => l

/-- A standard sanitizer `g` run on a field: on the text of a scalar, on the
text of every element of an array. -/
def sanitizeField (g : String → String) : JsonField → TextParam
  | JsonField.scalar v => TextParam.one (g v.toStr)
  | JsonField.array l => TextParam.many (l.map (fun v => g v.toStr))

/-- A standard sanitizer `g` run on an already sanitized field. -/
def sanitizeText (g : String → String) : TextParam → TextParam
  | TextParam.one s => TextParam.one (g s)
  | TextParam.many l => TextParam.many (l.map g)

/-- The texts of an array joined by commas (`Array.prototype.toString`). -/
def joinComma (l : List String) : String := ",".intercalate l

/-! ## The store -/

/-- A value held by a column. -/
inductive SqlValue where
  | null
  | real (x : Double)
  | text (s : String)
deriving DecidableEq, Repr

/-- REAL affinity on a bound text: a text that is a numeral becomes a double
(taken as the nearest one), any other text is kept.  (A numeral between
blanks, which SQLite converts too, is refused by `isFloat` and does not reach
the products table.) -/
def realAffinity (t : String) : SqlValue :=
  match numberOf t with
  | some d => SqlValue.real d
  | none => SqlValue.text t

/-- The value a REAL column holds after a JavaScript value is bound to it: a
number and a boolean are bound as numbers, a string as text, an array as the
text of its `toString()`, null as NULL. -/
def realColumn : JsonField → SqlValue
  | JsonField.scalar JsonScalar.null => SqlValue.null
  | JsonField.scalar (JsonScalar.bool b) =>
    SqlValue.real (if b then Double.finite false 1 0 else Double.finite false 0 0)
  | JsonField.scalar (JsonScalar.number t) =>
    match numberOf t with
    | some d => SqlValue.real d
    | none => SqlValue.null
  | JsonField.scalar (JsonScalar.string s) => realAffinity s
  | JsonField.array l => realAffinity (joinComma (l.map JsonScalar.toStr))

/-- The text a TEXT column holds after a sanitized field is bound to it. -/
def textColumn : TextParam → String
  | TextParam.one s => s
  | TextParam.many l => joinComma l

/-- A row of `profiles`; a column is `none` when it holds NULL. -/
structure Profile where
  id : Nat
  name : Option String
  email : Option String
  password : Option String
  phone : Option String
  location : Option String
  farmingtype : Option String
  description : Option String
deriving DecidableEq, Repr

/-- The columns of a row of `products` other than its id. -/
structure ProductColumns where
  name : String
  productname : String
  priceperkg_l : SqlValue
  amountkg_l : SqlValue
  description : String
deriving DecidableEq, Repr

/-- A row of `products`. -/
structure Product where
  id : Nat
  name : String
  productname : String
  priceperkg_l : SqlValue
  amountkg_l : SqlValue
  description : String
deriving DecidableEq, Repr

/-- A row of `cart`; a column is `none` when it holds NULL. -/
structure CartLine where
  id : Nat
  productname : Option String
  price : Option String
deriving DecidableEq, Repr

/-- The database `farmconnect.db`: each table as its rows in rowid order. -/
structure Store where
  profiles : List Profile
  products : List Product
  cart : List CartLine
deriving DecidableEq, Repr

/-- The database before any row was written. -/
def emptyStore : Store := ⟨[], [], []⟩

/-- The rowid given to an insert that names no id into a table holding the
rowids `ids`: the largest one plus one, and 1 for an empty table. -/
def nextId (ids : List Nat) : Nat := ids.foldl max 0 + 1

/-- The body of `POST /submit-profile`. -/
structure ProfileForm where
  name : Option String
  email : Option String
  password : Option String
  phone : Option String
  location : Option String
  farmingtype : Option String
  description : Option String
deriving DecidableEq, Repr

/-- The body of `POST /products` as `express.json()` delivers it. -/
structure ProductForm where
  name : JsonField
  productname : JsonField
  priceperkg_l : JsonField
  amountkg_l : JsonField
  description : JsonField
deriving DecidableEq, Repr

/-- The object handed to `dbService.addProduct`: the text fields as strings
(or arrays of strings), the numeric fields as submitted. -/
structure ProductParams where
  name : TextParam
  productname : TextParam
  priceperkg_l : JsonField
  amountkg_l : JsonField
  description : TextParam
deriving DecidableEq, Repr

/-- The columns the five bound parameters of the insert give. -/
def ProductParams.columns (p : ProductParams) : ProductColumns :=
  ⟨textColumn p.name, textColumn p.productname, realColumn p.priceperkg_l,
    realColumn p.amountkg_l, textColumn p.description⟩

/-- `INSERT INTO profiles (name, email, ...) VALUES (?, ...)`. -/
def insertProfile (s : Store) (f : ProfileForm) : Store :=
  { s with profiles := s.profiles ++
      [⟨nextId (s.profiles.map Profile.id), f.name, f.email, f.password, f.phone,
        f.location, f.farmingtype, f.description⟩] }

/-- `INSERT INTO products (name, productname, ...) VALUES (?, ...)`, with the
new row's rowid (`this.lastID`). -/
def insertProduct (s : Store) (p : ProductParams) : Nat × Store :=
  let newId := nextId (s.products.map Product.id)
  let c := p.columns
  (newId, { s with products := s.products ++
      [⟨newId, c.name, c.productname, c.priceperkg_l, c.amountkg_l, c.description⟩] })

/-- `INSERT INTO cart (productname, price) VALUES (?, ?)`. -/
def insertCart (s : Store) (productname price : Option String) : Store :=
  { s with cart := s.cart ++ [⟨nextId (s.cart.map CartLine.id), productname, price⟩] }

/-- `DELETE FROM cart WHERE productname = ?`: a NULL name equals nothing. -/
def deleteFromCart (s : Store) (productname : String) : Store :=
  { s with cart := s.cart.filter (fun r => decide (r.productname ≠ some productname)) }

/-! ## Start-up (`db.serialize`) -/

/-- The array `sampleProducts`. -/
def sampleProducts : List ProductParams :=
  [⟨TextParam.one "Farmer John", TextParam.one "Carrots",
      JsonField.scalar (JsonScalar.number "40"), JsonField.scalar (JsonScalar.number "100"),
      TextParam.one "Fresh organic carrots"⟩,
   ⟨TextParam.one "Farmer Jane", TextParam.one "Apples",
      JsonField.scalar (JsonScalar.number "60"), JsonField.scalar (JsonScalar.number "50"),
      TextParam.one "Crisp and juicy apples"⟩,
   ⟨TextParam.one "Farmer Joe", TextParam.one "Tomatoes",
      JsonField.scalar (JsonScalar.number "30"), JsonField.scalar (JsonScalar.number "80"),
      TextParam.one "Ripe red tomatoes"⟩]

/-- One process start: the three `CREATE TABLE IF NOT EXISTS` keep what the
tables hold, then `sampleProducts.forEach` inserts every sample product. -/
def startup (s : Store) : Store :=
  sampleProducts.foldl (fun st p => (insertProduct st p).2) s

/-! ## Requests and responses -/

/-- A value of a listed row, as `JSON.stringify` writes it. -/
inductive JsonValue where
  | null
  | number (x : Double)
  | string (s : String)
deriving DecidableEq, Repr

/-- The JSON form of a column value: a double that is not finite is written
`null`. -/
def SqlValue.toJson : SqlValue → JsonValue
  | SqlValue.null => JsonValue.null
  | SqlValue.real (Double.finite neg m e) => JsonValue.number (Double.finite neg m e)
  | SqlValue.real (Double.infinite _) => JsonValue.null
  | SqlValue.text s => JsonValue.string s

/-- A product row as `GET /products` lists it. -/
structure ProductJson where
  id : Nat
  name : String
  productname : String
  priceperkg_l : JsonValue
  amountkg_l : JsonValue
  description : String
deriving DecidableEq, Repr

/-- The JSON object of a product row. -/
def Product.toJson (r : Product) : ProductJson :=
  ⟨r.id, r.name, r.productname, r.priceperkg_l.toJson, r.amountkg_l.toJson, r.description⟩

/-- One entry of `errors.array()`. -/
structure FieldError where
  value : JsonScalar
  msg : String
  path : String
  location : String
deriving DecidableEq, Repr

/-- The JSON body of a response. -/
inductive Body where
  /-- the object with the single key `message` -/
  | message (message : String)
  /-- the object with the keys `message` and `productId` -/
  | created (message : String) (productId : Nat)
  /-- the object with the single key `errors` -/
  | errors (errors : List FieldError)
  /-- the object with the key `error` and, unless undefined, `details` -/
  | failure (error : String) (details : Option String)
  /-- the array of product rows -/
  | products (rows : List ProductJson)
  /-- the array of cart rows -/
  | cart (rows : List CartLine)
deriving DecidableEq, Repr

/-- What a route sends back. -/
structure Response where
  status : Nat
  body : Body
deriving DecidableEq, Repr

/-- The error a validator of a chain adds when it fails on `value`. -/
def invalidValue (path : String) (value : JsonScalar) : FieldError :=
  ⟨value, "Invalid value", path, "body"⟩

/-- The errors of `notEmpty()` on a trimmed field: one for each empty string. -/
def notEmptyErrors (path : String) (t : TextParam) : List FieldError :=
  (t.items.filter isEmpty).map (fun s => invalidValue path (JsonScalar.string s))

/-- The errors of `isFloat({ min: 0 })` on a field: one for each value whose
text fails. -/
def isFloatErrors (path : String) (v : JsonField) : List FieldError :=
  (v.items.filter (fun x => !isFloatMin0 x.toStr)).map (invalidValue path)

/-- The middleware `validateProduct`: the five chains run in order, every
sanitizer writes its result back into `req.body`, every failing validator adds
an error.  Returns the body as left for the handler and `errors.array()`. -/
def validateProduct (f : ProductForm) : ProductParams × List FieldError :=
  let name := sanitizeField trim f.name
  let e1 := notEmptyErrors "name" name
  let productname := sanitizeField trim f.productname
  let e2 := notEmptyErrors "productname" productname
  let e3 := isFloatErrors "priceperkg_l" f.priceperkg_l
  let e4 := isFloatErrors "amountkg_l" f.amountkg_l
  (⟨sanitizeText escape name, sanitizeText escape productname, f.priceperkg_l, f.amountkg_l,
    sanitizeText escape (sanitizeField trim f.description)⟩,
   e1 ++ e2 ++ e3 ++ e4)

/-- `process.env.NODE_ENV === 'development' ? err.message : undefined`. -/
def details (nodeEnv : Option String) (errMessage : String) : Option String :=
  if nodeEnv = some "development" then some errMessage else none

/-- `app.post('/submit-profile')`; `storeErr` is the message of the error the
insert fails with, if it fails. -/
def submitProfile (storeErr : Option String) (s : Store) (f : ProfileForm) : Response × Store :=
  match storeErr with
  | some m => (⟨500, Body.failure m none⟩, s)
  | none => (⟨200, Body.message "Profile submitted successfully!"⟩, insertProfile s f)

/-- `app.post('/products', validateProduct, ...)`. -/
def postProducts (nodeEnv storeErr : Option String) (s : Store) (f : ProductForm) :
    Response × Store :=
  let (body, errors) := validateProduct f
  if !errors.isEmpty then (⟨400, Body.errors errors⟩, s)
  else
    match storeErr with
    | some m => (⟨500, Body.failure "Internal server error" (details nodeEnv m)⟩, s)
    | none =>
      let (productId, s1) := insertProduct s body
      (⟨201, Body.created "Product added successfully!" productId⟩, s1)

/-- `app.get('/products')`. -/
def getProducts (nodeEnv storeErr : Option String) (s : Store) : Response × Store :=
  match storeErr with
  | some m => (⟨500, Body.failure "Internal server error" (details nodeEnv m)⟩, s)
  | none => (⟨200, Body.products (s.products.map Product.toJson)⟩, s)

/-- `app.post('/add-to-cart')`. -/
def addToCart (storeErr : Option String) (s : Store) (productname price : Option String) :
    Response × Store :=
  match storeErr with
  | some m => (⟨500, Body.failure m none⟩, s)
  | none => (⟨200, Body.message "Product added to cart!"⟩, insertCart s productname price)

/-- `app.get('/cart')`. -/
def getCart (storeErr : Option String) (s : Store) : Response × Store :=
  match storeErr with
  | some m => (⟨500, Body.failure m none⟩, s)
  | none => (⟨200, Body.cart s.cart⟩, s)

/-- `app.delete('/cart/:productname')`. -/
def deleteCart (storeErr : Option String) (s : Store) (productname : String) : Response × Store :=
  match storeErr with
  | some m => (⟨500, Body.failure m none⟩, s)
  | none => (⟨200, Body.message "Product removed from cart!"⟩, deleteFromCart s productname)

/-- A request to one of the six store routes. -/
inductive Request where
  | submitProfile (form : ProfileForm)
  | postProducts (form : ProductForm)
  | getProducts
  | addToCart (productname price : Option String)
  | getCart
  | deleteCart (productname : String)
deriving DecidableEq, Repr

/-- The application: the route of a request, run under `NODE_ENV = nodeEnv`
with the store statement failing as `storeErr` says. -/
def handle (nodeEnv storeErr : Option String) (s : Store) : Request → Response × Store
  | Request.submitProfile f => submitProfile storeErr s f
  | Request.postProducts f => postProducts nodeEnv storeErr s f
  | Request.getProducts => getProducts nodeEnv storeErr s
  | Request.addToCart n p => addToCart storeErr s n p
  | Request.getCart => getCart storeErr s
  | Request.deleteCart n => deleteCart storeErr s n

/-- A sequence of requests, each with the outcome of its store statement,
served one after the other. -/
def run (nodeEnv : Option String) (s : Store) : List (Request × Option String) → Store
  | [] => s
  | (req, storeErr) :: rest => run nodeEnv (handle nodeEnv storeErr s req).2 rest

/-- The columns of a product row other than its id. -/
def Product.columns (r : Product) : ProductColumns :=
  ⟨r.name, r.productname, r.priceperkg_l, r.amountkg_l, r.description⟩

/-- Within every table the ids grow strictly along the rows. -/
def IdsIncreasing (s : Store) : Prop :=
  (s.profiles.map Profile.id).Pairwise (· < ·) ∧
  (s.products.map Product.id).Pairwise (· < ·) ∧
  (s.cart.map CartLine.id).Pairwise (· < ·)

/-- A body field that is the JSON string `s`. -/
def JsonField.str (s : String) : JsonField := JsonField.scalar (JsonScalar.string s)

/-- A body field that is the JSON number rendered `t`. -/
def JsonField.num (t : String) : JsonField := JsonField.scalar (JsonScalar.number t)

/-! ## What "trimmed" and "HTML-escaped" mean -/

/-- The entity that stands for a character in an HTML-escaped text. -/
def htmlEntity (c : Char) : String :=
  if c = '&' then "&amp;"
  else if c = '"' then "&quot;"
  else if c = Char.ofNat 39 then "&#x27;"
  else if c = '<' then "&lt;"
  else if c = '>' then "&gt;"
  else if c = '/' then "&#x2F;"
  else if c = Char.ofNat 92 then "&#x5C;"
  else if c = Char.ofNat 96 then "&#96;"
  else ⟨[c]⟩

/-- A text with each character replaced by its entity. -/
def htmlEscaped (s : String) : String := ⟨s.data.flatMap (fun c => (htmlEntity c).data)⟩

/-- The text `t` is `s` without the whitespace at its two ends: `s` is `t`
between two runs of whitespace, and `t` neither starts nor ends with
whitespace. -/
def IsTrimmed (s t : String) : Prop :=
  ∃ pre post : List Char, s.data = pre ++ t.data ++ post ∧
    (∀ c ∈ pre, isJsSpace c = true) ∧ (∀ c ∈ post, isJsSpace c = true) ∧
    (∀ c, t.data.head? = some c → isJsSpace c = false) ∧
    (∀ c, t.data.getLast? = some c → isJsSpace c = false)

/-- The JSON value `j` is what a listing shows for the double `x`: the number
itself when it is finite, `null` when it is not. -/
def ListedAs (x : Double) (j : JsonValue) : Prop :=
  (∀ neg m e, x = Double.finite neg m e → j = JsonValue.number x) ∧
  (∀ neg, x = Double.infinite neg → j = JsonValue.null)

/-! ## Lemmas on the validators -/

theorem isFloatMin0_iff (s : String) :
    isFloatMin0 s = true ↔ floatClass s = some NumClass.nonNegative := by
  unfold isFloatMin0
  split
  · rename_i h
    simp only [Bool.or_eq_true, decide_eq_true_eq] at h
    rcases h with (((h | h) | h) | h) | h <;> subst h <;> decide
  · unfold floatClass
    cases hm : matchFloat s with
    | none => simp
    | some f =>
      simp only [Option.map_some', Option.some.injEq, FloatLit.numClass]
      cases hv : f.value with
      | none => simp
      | some d => cases hg : d.geZero <;> simp

theorem isFloatMin0_false_iff (s : String) :
    isFloatMin0 s = false ↔ floatClass s ≠ some NumClass.nonNegative := by
  have h := isFloatMin0_iff s
  cases hb : isFloatMin0 s
  · simp only [true_iff]
    intro hc
    rw [← h, hb] at hc
    exact Bool.noConfusion hc
  · simp only [false_iff, ne_eq, not_not, Bool.true_eq_false]
    exact h.mp hb

theorem numberOf_of_nonNegative (s : String) (h : floatClass s = some NumClass.nonNegative) :
    ∃ x, numberOf s = some x ∧ x.geZero = true := by
  unfold floatClass at h
  unfold numberOf
  cases hm : matchFloat s with
  | none => rw [hm] at h; simp at h
  | some f =>
    rw [hm] at h
    simp only [Option.map_some', Option.some.injEq, FloatLit.numClass] at h
    cases hv : f.value with
    | none => rw [hv] at h; simp at h
    | some d =>
      rw [hv] at h
      refine ⟨d, by simp [hv], ?_⟩
      cases hg : d.geZero
      · simp [hg] at h
      · rfl

theorem isEmpty_iff (s : String) : isEmpty s = true ↔ s = "" := by
  unfold isEmpty
  constructor
  · intro h
    apply String.ext
    simpa [List.isEmpty_iff] using h
  · rintro rfl; rfl

/-! ## Lemmas on `trim` and `escape` -/

theorem rtrimChars_append (l : List Char) :
    l = rtrimChars l ++ (l.reverse.takeWhile isJsSpace).reverse := by
  unfold rtrimChars
  rw [← List.reverse_append, List.takeWhile_append_dropWhile, List.reverse_reverse]

theorem head_dropWhile_space (l : List Char) (c : Char)
    (h : (l.dropWhile isJsSpace).head? = some c) : isJsSpace c = false := by
  have := List.head?_dropWhile_not isJsSpace l
  rw [h] at this
  simpa using this

theorem trim_isTrimmed (s : String) : IsTrimmed s (trim s) := by
  refine ⟨s.data.takeWhile isJsSpace, ((ltrimChars s.data).reverse.takeWhile isJsSpace).reverse,
    ?_, ?_, ?_, ?_, ?_⟩
  · show s.data = _ ++ rtrimChars (ltrimChars s.data) ++ _
    rw [List.append_assoc, ← rtrimChars_append]
    exact (List.takeWhile_append_dropWhile isJsSpace s.data).symm
  · intro c hc
    exact List.mem_takeWhile_imp hc
  · intro c hc
    exact List.mem_takeWhile_imp (List.mem_reverse.mp hc)
  · intro c hc
    have hc2 : (rtrimChars (ltrimChars s.data)).head? = some c := hc
    have happ := rtrimChars_append (ltrimChars s.data)
    have hh : (ltrimChars s.data).head? = some c := by
      rw [happ, List.head?_append, hc2]; rfl
    exact head_dropWhile_space s.data c hh
  · intro c hc
    have hc2 : (rtrimChars (ltrimChars s.data)).getLast? = some c := hc
    unfold rtrimChars at hc2
    rw [List.getLast?_reverse] at hc2
    exact head_dropWhile_space _ c hc2

theorem trim_eq_empty_iff (s : String) : trim s = "" ↔ ∀ c ∈ s.data, isJsSpace c = true := by
  constructor
  · intro h
    obtain ⟨pre, post, hs, hpre, hpost, _, _⟩ := trim_isTrimmed s
    rw [h] at hs
    intro c hc
    rw [hs] at hc
    simp only [List.append_nil, List.mem_append] at hc
    rcases hc with hc | hc
    · exact hpre c hc
    · exact hpost c hc
  · intro h
    apply String.ext
    show rtrimChars (ltrimChars s.data) = []
    have h1 : ltrimChars s.data = [] := by
      unfold ltrimChars
      rw [List.dropWhile_eq_nil_iff]
      exact h
    rw [h1]; rfl

theorem replaceAll_append (c : Char) (r : String) (a b : List Char) :
    replaceAll c r (a ++ b) = replaceAll c r a ++ replaceAll c r b := by
  simp [replaceAll]

theorem replaceAll_nil (c : Char) (r : String) : replaceAll c r [] = [] := rfl

theorem replaceAll_single_ne (c : Char) (r : String) (x : Char) (h : x ≠ c) :
    replaceAll c r [x] = [x] := by
  simp [replaceAll, h]

/-- The eight replacements of `escape`, on a list of characters. -/
theorem escape_data (s : String) :
    (escape s).data =
      replaceAll (Char.ofNat 96) "&#96;"
        (replaceAll (Char.ofNat 92) "&#x5C;"
          (replaceAll '/' "&#x2F;"
            (replaceAll '>' "&gt;"
              (replaceAll '<' "&lt;"
                (replaceAll (Char.ofNat 39) "&#x27;"
                  (replaceAll '"' "&quot;"
                    (replaceAll '&' "&amp;" s.data))))))) := rfl

theorem escape_single (x : Char) : (escape ⟨[x]⟩).data = (htmlEntity x).data := by
  rw [escape_data]
  unfold htmlEntity
  split_ifs with h1 h2 h3 h4 h5 h6 h7 h8
  · subst h1; decide
  · subst h2; decide
  · subst h3; decide
  · subst h4; decide
  · subst h5; decide
  · subst h6; decide
  · subst h7; decide
  · subst h8; decide
  · rw [replaceAll_single_ne _ _ x h1, replaceAll_single_ne _ _ x h2,
      replaceAll_single_ne _ _ x h3, replaceAll_single_ne _ _ x h4,
      replaceAll_single_ne _ _ x h5, replaceAll_single_ne _ _ x h6,
      replaceAll_single_ne _ _ x h7, replaceAll_single_ne _ _ x h8]

theorem escape_cons (x : Char) (l : List Char) :
    (escape ⟨x :: l⟩).data = (escape ⟨[x]⟩).data ++ (escape ⟨l⟩).data := by
  have hx : x :: l = [x] ++ l := rfl
  simp only [escape_data]
  rw [hx]
  simp only [replaceAll_append]

/-- The sequence of replacements of `escape` replaces each character by its
entity: no replacement touches what an earlier one wrote. -/
theorem escape_eq_htmlEscaped (s : String) : escape s = htmlEscaped s := by
  apply String.ext
  obtain ⟨l⟩ := s
  show (escape ⟨l⟩).data = l.flatMap (fun c => (htmlEntity c).data)
  induction l with
  | nil => rfl
  | cons x xs ih =>
    rw [escape_cons, ih, escape_single, List.flatMap_cons]

/-! ## Lemmas on rowids -/

theorem le_foldl_max (l : List Nat) (a : Nat) : a ≤ l.foldl max a := by
  induction l generalizing a with
  | nil => simp
  | cons x xs ih => exact le_trans (le_max_left a x) (ih (max a x))

theorem mem_le_foldl_max (l : List Nat) (a x : Nat) (h : x ∈ l) : x ≤ l.foldl max a := by
  induction l generalizing a with
  | nil => cases h
  | cons y ys ih =>
    rcases List.mem_cons.mp h with rfl | h
    · exact le_trans (le_max_right a x) (le_foldl_max ys (max a x))
    · exact ih (max a y) h

theorem foldl_max_mem (l : List Nat) (a : Nat) : l.foldl max a = a ∨ l.foldl max a ∈ l := by
  induction l generalizing a with
  | nil => simp
  | cons y ys ih =>
    rw [List.foldl_cons]
    rcases ih (max a y) with h | h
    · rcases max_choice a y with h1 | h1
      · left; rw [h, h1]
      · right; rw [h, h1]; exact List.mem_cons_self _ _
    · right; exact List.mem_cons_of_mem _ h

theorem lt_nextId (ids : List Nat) (x : Nat) (h : x ∈ ids) : x < nextId ids :=
  Nat.lt_succ_of_le (mem_le_foldl_max ids 0 x h)

theorem nextId_nil : nextId [] = 1 := rfl

theorem nextId_of_ne_nil (ids : List Nat) (h : ids ≠ []) : ∃ x ∈ ids, nextId ids = x + 1 := by
  rcases foldl_max_mem ids 0 with h0 | h0
  · obtain ⟨y, ys, rfl⟩ := List.exists_cons_of_ne_nil h
    have hy : y ≤ (y :: ys).foldl max 0 := mem_le_foldl_max _ 0 y (List.mem_cons_self _ _)
    have : y = 0 := by omega
    exact ⟨y, List.mem_cons_self _ _, by unfold nextId; omega⟩
  · exact ⟨_, h0, rfl⟩

/-- Appending a row whose id exceeds every id present keeps the ids increasing. -/
theorem pairwise_append_nextId (ids : List Nat) (h : ids.Pairwise (· < ·)) :
    (ids ++ [nextId ids]).Pairwise (· < ·) := by
  rw [List.pairwise_append]
  refine ⟨h, List.pairwise_singleton _ _, ?_⟩
  intro a ha b hb
  rw [List.mem_singleton] at hb
  subst hb
  exact lt_nextId ids a ha

/-! ## Lemmas on `POST /products` -/

theorem sanitizeField_items (g : String → String) (v : JsonField) :
    (sanitizeField g v).items = v.items.map (fun x => g x.toStr) := by
  cases v <;> rfl

theorem notEmptyErrors_nil_iff (path : String) (v : JsonField) :
    notEmptyErrors path (sanitizeField trim v) = [] ↔ ∀ x ∈ v.items, trim x.toStr ≠ "" := by
  unfold notEmptyErrors
  rw [List.map_eq_nil_iff, List.filter_eq_nil_iff, sanitizeField_items]
  simp only [List.mem_map, forall_exists_index, and_imp, forall_apply_eq_imp_iff₂, isEmpty_iff]

theorem isFloatErrors_nil_iff (path : String) (v : JsonField) :
    isFloatErrors path v = [] ↔ ∀ x ∈ v.items, isFloatMin0 x.toStr = true := by
  unfold isFloatErrors
  rw [List.map_eq_nil_iff, List.filter_eq_nil_iff]
  simp

theorem notEmptyErrors_mem (path : String) (v : JsonField) (x : JsonScalar)
    (hx : x ∈ v.items) (h : trim x.toStr = "") :
    invalidValue path (JsonScalar.string (trim x.toStr)) ∈
      notEmptyErrors path (sanitizeField trim v) := by
  unfold notEmptyErrors
  rw [sanitizeField_items]
  refine List.mem_map.mpr ⟨trim x.toStr, ?_, rfl⟩
  rw [List.mem_filter]
  exact ⟨List.mem_map.mpr ⟨x, hx, rfl⟩, (isEmpty_iff _).mpr h⟩

theorem isFloatErrors_mem (path : String) (v : JsonField) (x : JsonScalar)
    (hx : x ∈ v.items) (h : isFloatMin0 x.toStr = false) :
    invalidValue path x ∈ isFloatErrors path v := by
  unfold isFloatErrors
  refine List.mem_map.mpr ⟨x, ?_, rfl⟩
  rw [List.mem_filter]
  exact ⟨hx, by simp [h]⟩

theorem notEmptyErrors_path (path : String) (t : TextParam) (e : FieldError)
    (he : e ∈ notEmptyErrors path t) : e.path = path := by
  unfold notEmptyErrors at he
  obtain ⟨x, _, rfl⟩ := List.mem_map.mp he
  rfl

theorem isFloatErrors_path (path : String) (v : JsonField) (e : FieldError)
    (he : e ∈ isFloatErrors path v) : e.path = path := by
  unfold isFloatErrors at he
  obtain ⟨x, _, rfl⟩ := List.mem_map.mp he
  rfl

theorem validateProduct_snd (f : ProductForm) :
    (validateProduct f).2 =
      notEmptyErrors "name" (sanitizeField trim f.name) ++
        notEmptyErrors "productname" (sanitizeField trim f.productname) ++
        isFloatErrors "priceperkg_l" f.priceperkg_l ++
        isFloatErrors "amountkg_l" f.amountkg_l := rfl

theorem validateProduct_fst (f : ProductForm) :
    (validateProduct f).1 =
      ⟨sanitizeText escape (sanitizeField trim f.name),
        sanitizeText escape (sanitizeField trim f.productname), f.priceperkg_l, f.amountkg_l,
        sanitizeText escape (sanitizeField trim f.description)⟩ := rfl

theorem validateProduct_errors_nil_iff (f : ProductForm) :
    (validateProduct f).2 = [] ↔
      ((∀ x ∈ f.name.items, trim x.toStr ≠ "") ∧
       (∀ x ∈ f.productname.items, trim x.toStr ≠ "") ∧
       (∀ x ∈ f.priceperkg_l.items, isFloatMin0 x.toStr = true) ∧
       (∀ x ∈ f.amountkg_l.items, isFloatMin0 x.toStr = true)) := by
  rw [validateProduct_snd]
  simp only [List.append_eq_nil, notEmptyErrors_nil_iff, isFloatErrors_nil_iff, and_assoc]

theorem validateProduct_error_paths (f : ProductForm) (e : FieldError)
    (he : e ∈ (validateProduct f).2) :
    e.path = "name" ∨ e.path = "productname" ∨ e.path = "priceperkg_l" ∨
      e.path = "amountkg_l" := by
  rw [validateProduct_snd] at he
  simp only [List.mem_append] at he
  rcases he with ((he | he) | he) | he
  · exact Or.inl (notEmptyErrors_path _ _ e he)
  · exact Or.inr (Or.inl (notEmptyErrors_path _ _ e he))
  · exact Or.inr (Or.inr (Or.inl (isFloatErrors_path _ _ e he)))
  · exact Or.inr (Or.inr (Or.inr (isFloatErrors_path _ _ e he)))

theorem name_error_mem (f : ProductForm) (x : JsonScalar) (hx : x ∈ f.name.items)
    (h : trim x.toStr = "") : ∃ e ∈ (validateProduct f).2, e.path = "name" := by
  refine ⟨invalidValue "name" (JsonScalar.string (trim x.toStr)), ?_, rfl⟩
  rw [validateProduct_snd]
  simp only [List.mem_append]
  exact Or.inl (Or.inl (Or.inl (notEmptyErrors_mem "name" f.name x hx h)))

theorem productname_error_mem (f : ProductForm) (x : JsonScalar)
    (hx : x ∈ f.productname.items) (h : trim x.toStr = "") :
    ∃ e ∈ (validateProduct f).2, e.path = "productname" := by
  refine ⟨invalidValue "productname" (JsonScalar.string (trim x.toStr)), ?_, rfl⟩
  rw [validateProduct_snd]
  simp only [List.mem_append]
  exact Or.inl (Or.inl (Or.inr (notEmptyErrors_mem "productname" f.productname x hx h)))

theorem price_error_mem (f : ProductForm) (x : JsonScalar) (hx : x ∈ f.priceperkg_l.items)
    (h : isFloatMin0 x.toStr = false) :
    ∃ e ∈ (validateProduct f).2, e.path = "priceperkg_l" := by
  refine ⟨invalidValue "priceperkg_l" x, ?_, rfl⟩
  rw [validateProduct_snd]
  simp only [List.mem_append]
  exact Or.inl (Or.inr (isFloatErrors_mem "priceperkg_l" f.priceperkg_l x hx h))

theorem amount_error_mem (f : ProductForm) (x : JsonScalar) (hx : x ∈ f.amountkg_l.items)
    (h : isFloatMin0 x.toStr = false) :
    ∃ e ∈ (validateProduct f).2, e.path = "amountkg_l" := by
  refine ⟨invalidValue "amountkg_l" x, ?_, rfl⟩
  rw [validateProduct_snd]
  simp only [List.mem_append]
  exact Or.inr (isFloatErrors_mem "amountkg_l" f.amountkg_l x hx h)

theorem postProducts_of_errors (nodeEnv storeErr : Option String) (s : Store) (f : ProductForm)
    (h : (validateProduct f).2 ≠ []) :
    postProducts nodeEnv storeErr s f = (⟨400, Body.errors (validateProduct f).2⟩, s) := by
  unfold postProducts
  have : (validateProduct f).2.isEmpty = false := by
    cases hv : (validateProduct f).2 with
    | nil => exact absurd hv h
    | cons a l => rfl
  simp [this]

theorem postProducts_of_valid (nodeEnv : Option String) (s : Store) (f : ProductForm)
    (h : (validateProduct f).2 = []) :
    postProducts nodeEnv none s f =
      (⟨201, Body.created "Product added successfully!" (nextId (s.products.map Product.id))⟩,
        (insertProduct s (validateProduct f).1).2) := by
  unfold postProducts
  simp [h, insertProduct]

theorem postProducts_of_store_failure (nodeEnv : Option String) (m : String) (s : Store)
    (f : ProductForm) (h : (validateProduct f).2 = []) :
    postProducts nodeEnv (some m) s f =
      (⟨500, Body.failure "Internal server error" (details nodeEnv m)⟩, s) := by
  unfold postProducts
  simp [h]

theorem postProducts_status_400_iff (nodeEnv storeErr : Option String) (s : Store)
    (f : ProductForm) :
    (postProducts nodeEnv storeErr s f).1.status = 400 ↔ (validateProduct f).2 ≠ [] := by
  by_cases h : (validateProduct f).2 = []
  · cases storeErr with
    | none => rw [postProducts_of_valid nodeEnv s f h]; simp [h]
    | some m => rw [postProducts_of_store_failure nodeEnv m s f h]; simp [h]
  · rw [postProducts_of_errors nodeEnv storeErr s f h]; simp [h]

/-! ## The claims -/

/-- C1, against the claim: on the empty store a request whose `priceperkg_l`
is the empty array, which is no number, is answered 201 and a row is added;
and so is a request whose `priceperkg_l` is the negative numeral `-1e-400`,
which rounds to zero. -/
theorem postProducts_bad_price_accepted :
    (postProducts none none emptyStore
      ⟨JsonField.str "Farmer X", JsonField.str "Pears", JsonField.array [],
        JsonField.num "10", JsonField.str "Sweet pears"⟩).1.status = 201 ∧
    (postProducts none none emptyStore
      ⟨JsonField.str "Farmer X", JsonField.str "Pears", JsonField.array [],
        JsonField.num "10", JsonField.str "Sweet pears"⟩).2.products.length = 1 ∧
    emptyStore.products.length = 0 ∧
    (postProducts none none emptyStore
      ⟨JsonField.str "Farmer X", JsonField.str "Pears", JsonField.str "-1e-400",
        JsonField.num "10", JsonField.str "Sweet pears"⟩).1.status = 201 ∧
    (postProducts none none emptyStore
      ⟨JsonField.str "Farmer X", JsonField.str "Pears", JsonField.str "-1e-400",
        JsonField.num "10", JsonField.str "Sweet pears"⟩).2.products.length = 1 := by
  set_option exponentiation.threshold 2000 in
  set_option maxRecDepth 100000 in
  decide

/-- C1, amended: a `POST /products` in which a value handed to the price
validator (the field itself when it is a scalar, an element when it is an
array) does not have the float shape, reads as NaN or reads as a double below
zero is answered with status 400 and an errors list holding an entry for
`priceperkg_l`, whatever the other fields, the store outcome and `NODE_ENV`;
the store, and so the products table and its row count, is left as it was. -/
theorem postProducts_bad_price_rejected (nodeEnv storeErr : Option String) (s : Store)
    (f : ProductForm) (x : JsonScalar) (hx : x ∈ f.priceperkg_l.items)
    (h : floatClass x.toStr = some NumClass.negative ∨
         floatClass x.toStr = some NumClass.nan ∨
         floatClass x.toStr = none) :
    (postProducts nodeEnv storeErr s f).1.status = 400 ∧
    (∃ errors, (postProducts nodeEnv storeErr s f).1.body = Body.errors errors ∧
      ∃ e ∈ errors, e.path = "priceperkg_l") ∧
    (postProducts nodeEnv storeErr s f).2 = s ∧
    (postProducts nodeEnv storeErr s f).2.products = s.products ∧
    (postProducts nodeEnv storeErr s f).2.products.length = s.products.length := by
  have hbad : isFloatMin0 x.toStr = false := by
    rw [isFloatMin0_false_iff]
    rcases h with h | h | h <;> rw [h] <;> simp
  obtain ⟨e, hmem, hpath⟩ := price_error_mem f x hx hbad
  have hne : (validateProduct f).2 ≠ [] := List.ne_nil_of_mem hmem
  rw [postProducts_of_errors nodeEnv storeErr s f hne]
  exact ⟨rfl, ⟨_, rfl, e, hmem, hpath⟩, rfl, rfl, rfl⟩

/-- C1, amended, at concrete requests on the empty store: the price `-5`, and
an array holding the text `abc`. -/
theorem postProducts_bad_price_rejected_witness :
    (postProducts none none emptyStore
      ⟨JsonField.str "Farmer X", JsonField.str "Pears", JsonField.num "-5",
        JsonField.num "10", JsonField.str "Sweet pears"⟩).1.status = 400 ∧
    (postProducts none none emptyStore
      ⟨JsonField.str "Farmer X", JsonField.str "Pears",
        JsonField.array [JsonScalar.number "25", JsonScalar.string "abc"],
        JsonField.num "10", JsonField.str "Sweet pears"⟩).1.status = 400 :=
  ⟨(postProducts_bad_price_rejected none none emptyStore
      ⟨JsonField.str "Farmer X", JsonField.str "Pears", JsonField.num "-5",
        JsonField.num "10", JsonField.str "Sweet pears"⟩
      (JsonScalar.number "-5") (by decide) (Or.inl (by decide))).1,
   (postProducts_bad_price_rejected none none emptyStore
      ⟨JsonField.str "Farmer X", JsonField.str "Pears",
        JsonField.array [JsonScalar.number "25", JsonScalar.string "abc"],
        JsonField.num "10", JsonField.str "Sweet pears"⟩
      (JsonScalar.string "abc") (by decide) (Or.inr (Or.inr (by decide)))).1⟩

/-- C7, against the claim: on the empty store a request whose `name` and
`amountkg_l` are empty arrays fails the rules of the claim (the name is empty,
the amount is no float) and yet is answered 201, and `addProduct` stores the
row with an empty name and an empty text as amount. -/
theorem postProducts_empty_arrays_accepted :
    (postProducts none none emptyStore
      ⟨JsonField.array [], JsonField.str "Pears", JsonField.num "25",
        JsonField.array [], JsonField.str "Sweet pears"⟩).1.status = 201 ∧
    (postProducts none none emptyStore
      ⟨JsonField.array [], JsonField.str "Pears", JsonField.num "25",
        JsonField.array [], JsonField.str "Sweet pears"⟩).2.products =
      [⟨1, "", "Pears", SqlValue.real (Double.finite false 25 0), SqlValue.text "",
        "Sweet pears"⟩] := by
  decide

/-- C7, amended: `POST /products` answers 400 exactly when a value handed to
a validator fails its rule, the values of a field being the field itself when
it is a scalar and its elements when it is an array: a name or productname
value empty after trimming, a `priceperkg_l` or `amountkg_l` value not a float
at least 0.  It then leaves the store untouched and answers the same whatever
the store would have done (`addProduct` is not reached); the description never
changes the verdict; and each failing field has an entry in the errors list,
which holds entries for these four fields only. -/
theorem postProducts_rejects_iff_rule_fails (nodeEnv storeErr : Option String) (s : Store)
    (f : ProductForm) :
    ((postProducts nodeEnv storeErr s f).1.status = 400 ↔
      ((∃ x ∈ f.name.items, trim x.toStr = "") ∨
       (∃ x ∈ f.productname.items, trim x.toStr = "") ∨
       (∃ x ∈ f.priceperkg_l.items, floatClass x.toStr ≠ some NumClass.nonNegative) ∨
       (∃ x ∈ f.amountkg_l.items, floatClass x.toStr ≠ some NumClass.nonNegative))) ∧
    ((postProducts nodeEnv storeErr s f).1.status = 400 →
      (postProducts nodeEnv storeErr s f).2 = s ∧
      ∀ otherErr, postProducts nodeEnv otherErr s f = postProducts nodeEnv storeErr s f) ∧
    (∀ d, (postProducts nodeEnv storeErr s { f with description := d }).1.status = 400 ↔
      (postProducts nodeEnv storeErr s f).1.status = 400) ∧
    ((postProducts nodeEnv storeErr s f).1.status = 400 →
      ∃ errors, (postProducts nodeEnv storeErr s f).1.body = Body.errors errors ∧
        ((∃ x ∈ f.name.items, trim x.toStr = "") → ∃ e ∈ errors, e.path = "name") ∧
        ((∃ x ∈ f.productname.items, trim x.toStr = "") →
          ∃ e ∈ errors, e.path = "productname") ∧
        ((∃ x ∈ f.priceperkg_l.items, floatClass x.toStr ≠ some NumClass.nonNegative) →
          ∃ e ∈ errors, e.path = "priceperkg_l") ∧
        ((∃ x ∈ f.amountkg_l.items, floatClass x.toStr ≠ some NumClass.nonNegative) →
          ∃ e ∈ errors, e.path = "amountkg_l") ∧
        (∀ e ∈ errors, e.path ≠ "description")) := by
  have hiff : ∀ g : ProductForm, (validateProduct g).2 ≠ [] ↔
      ((∃ x ∈ g.name.items, trim x.toStr = "") ∨
       (∃ x ∈ g.productname.items, trim x.toStr = "") ∨
       (∃ x ∈ g.priceperkg_l.items, floatClass x.toStr ≠ some NumClass.nonNegative) ∨
       (∃ x ∈ g.amountkg_l.items, floatClass x.toStr ≠ some NumClass.nonNegative)) := by
    intro g
    rw [Ne, validateProduct_errors_nil_iff]
    simp only [← isFloatMin0_false_iff, not_and_or, not_forall, Bool.not_eq_true,
      exists_prop, not_not, ne_eq]
  refine ⟨?_, ?_, ?_, ?_⟩
  · rw [postProducts_status_400_iff, hiff]
  · intro h
    rw [postProducts_status_400_iff] at h
    refine ⟨by rw [postProducts_of_errors nodeEnv storeErr s f h], fun otherErr => ?_⟩
    rw [postProducts_of_errors nodeEnv storeErr s f h, postProducts_of_errors nodeEnv otherErr s f h]
  · intro d
    rw [postProducts_status_400_iff, postProducts_status_400_iff, hiff, hiff]
  · intro h
    rw [postProducts_status_400_iff] at h
    rw [postProducts_of_errors nodeEnv storeErr s f h]
    refine ⟨_, rfl, ?_, ?_, ?_, ?_, ?_⟩
    · rintro ⟨x, hx, hn⟩; exact name_error_mem f x hx hn
    · rintro ⟨x, hx, hn⟩; exact productname_error_mem f x hx hn
    · rintro ⟨x, hx, hn⟩
      exact price_error_mem f x hx ((isFloatMin0_false_iff _).mpr hn)
    · rintro ⟨x, hx, hn⟩
      exact amount_error_mem f x hx ((isFloatMin0_false_iff _).mpr hn)
    · intro e he hd
      rcases validateProduct_error_paths f e he with h1 | h1 | h1 | h1 <;>
        (rw [h1] at hd; revert hd; decide)

/-- C7, amended, at concrete requests: a whitespace-only description is
accepted, a whitespace-only name is refused. -/
theorem postProducts_rejects_iff_rule_fails_witness :
    (postProducts none none emptyStore
      ⟨JsonField.str "Farmer X", JsonField.str "Pears", JsonField.num "25",
        JsonField.num "10", JsonField.str "  "⟩).1.status ≠ 400 ∧
    (postProducts none none emptyStore
      ⟨JsonField.str " ", JsonField.str "Pears", JsonField.num "25", JsonField.num "10",
        JsonField.str "Sweet pears"⟩).1.status = 400 :=
  ⟨fun h => by
      have := (postProducts_rejects_iff_rule_fails none none emptyStore
        ⟨JsonField.str "Farmer X", JsonField.str "Pears", JsonField.num "25",
          JsonField.num "10", JsonField.str "  "⟩).1.mp h
      revert this
      decide,
   (postProducts_rejects_iff_rule_fails none none emptyStore
      ⟨JsonField.str " ", JsonField.str "Pears", JsonField.num "25", JsonField.num "10",
        JsonField.str "Sweet pears"⟩).1.mpr
      (Or.inl ⟨JsonScalar.string " ", by decide, by decide⟩)⟩

theorem realColumn_of_numberOf (v : JsonScalar) (x : Double)
    (h : numberOf v.toStr = some x) : realColumn (JsonField.scalar v) = SqlValue.real x := by
  cases v with
  | null =>
    have h0 : numberOf JsonScalar.null.toStr = none := by decide
    rw [h0] at h; cases h
  | bool b =>
    have h0 : numberOf (JsonScalar.bool b).toStr = none := by cases b <;> decide
    rw [h0] at h; cases h
  | number t => simp only [JsonScalar.toStr] at h; simp [realColumn, h]
  | string t => simp only [JsonScalar.toStr] at h; simp [realColumn, realAffinity, h]

theorem listedAs_toJson (x : Double) : ListedAs x (SqlValue.real x).toJson := by
  cases x with
  | finite neg m e =>
    refine ⟨fun _ _ _ _ => rfl, fun _ h => ?_⟩
    cases h
  | infinite neg =>
    refine ⟨fun _ _ _ h => ?_, fun _ _ => rfl⟩
    cases h

/-- C2, against the claim: the price `1e309` is a float at least 0 and the
request is answered 201, but the `GET /products` served next lists the row
with the price `null`, not with the submitted number. -/
theorem postProducts_overflowing_price_listed_null :
    floatClass "1e309" = some NumClass.nonNegative ∧
    (postProducts none none emptyStore
      ⟨JsonField.str "Farmer X", JsonField.str "Pears", JsonField.str "1e309",
        JsonField.num "10", JsonField.str "Sweet pears"⟩).1.status = 201 ∧
    (getProducts none none
      (postProducts none none emptyStore
        ⟨JsonField.str "Farmer X", JsonField.str "Pears", JsonField.str "1e309",
          JsonField.num "10", JsonField.str "Sweet pears"⟩).2).1.body =
      Body.products
        [⟨1, "Farmer X", "Pears", JsonValue.null, JsonValue.number (Double.finite false 5 1),
          "Sweet pears"⟩] := by
  set_option exponentiation.threshold 2000 in
  set_option maxRecDepth 100000 in
  decide

/-- C2, amended: a `POST /products` whose five fields are JSON scalars, whose
name and productname hold a character that is not whitespace and whose price
and amount are floats at least 0 is answered, when the insert succeeds, with
status 201 and a `productId`; a `GET /products` served next lists a row with
that id, with the trimmed and HTML-escaped name, productname and description,
and with the submitted price and amount as doubles, each shown as the number
when it is finite and as `null` when it is not. -/
theorem postProducts_valid_created_and_listed (nodeEnv : Option String) (s : Store)
    (name productname price amount description : JsonScalar)
    (hname : ∃ c ∈ name.toStr.data, isJsSpace c = false)
    (hproductname : ∃ c ∈ productname.toStr.data, isJsSpace c = false)
    (hprice : floatClass price.toStr = some NumClass.nonNegative)
    (hamount : floatClass amount.toStr = some NumClass.nonNegative) :
    ∃ productId tn tp td x y jx jy,
      (postProducts nodeEnv none s
        ⟨JsonField.scalar name, JsonField.scalar productname, JsonField.scalar price,
          JsonField.scalar amount, JsonField.scalar description⟩).1 =
        ⟨201, Body.created "Product added successfully!" productId⟩ ∧
      IsTrimmed name.toStr tn ∧ IsTrimmed productname.toStr tp ∧
      IsTrimmed description.toStr td ∧
      numberOf price.toStr = some x ∧ numberOf amount.toStr = some y ∧
      ListedAs x jx ∧ ListedAs y jy ∧
      ∃ rows,
        (getProducts nodeEnv none
          (postProducts nodeEnv none s
            ⟨JsonField.scalar name, JsonField.scalar productname, JsonField.scalar price,
              JsonField.scalar amount, JsonField.scalar description⟩).2).1 =
          ⟨200, Body.products rows⟩ ∧
        (⟨productId, htmlEscaped tn, htmlEscaped tp, jx, jy, htmlEscaped td⟩ : ProductJson)
          ∈ rows := by
  obtain ⟨x, hx, _⟩ := numberOf_of_nonNegative _ hprice
  obtain ⟨y, hy, _⟩ := numberOf_of_nonNegative _ hamount
  have hn : trim name.toStr ≠ "" := by
    intro h0
    obtain ⟨c, hc, hsp⟩ := hname
    rw [(trim_eq_empty_iff _).mp h0 c hc] at hsp
    exact Bool.noConfusion hsp
  have hp : trim productname.toStr ≠ "" := by
    intro h0
    obtain ⟨c, hc, hsp⟩ := hproductname
    rw [(trim_eq_empty_iff _).mp h0 c hc] at hsp
    exact Bool.noConfusion hsp
  have hv : (validateProduct
      ⟨JsonField.scalar name, JsonField.scalar productname, JsonField.scalar price,
        JsonField.scalar amount, JsonField.scalar description⟩).2 = [] := by
    rw [validateProduct_errors_nil_iff]
    simp only [JsonField.items, List.mem_singleton, forall_eq]
    exact ⟨hn, hp, (isFloatMin0_iff _).mpr hprice, (isFloatMin0_iff _).mpr hamount⟩
  rw [postProducts_of_valid nodeEnv s _ hv]
  refine ⟨_, trim name.toStr, trim productname.toStr, trim description.toStr, x, y,
    (SqlValue.real x).toJson, (SqlValue.real y).toJson, rfl, trim_isTrimmed _, trim_isTrimmed _,
    trim_isTrimmed _, hx, hy, listedAs_toJson x, listedAs_toJson y, _, rfl, ?_⟩
  simp only [insertProduct, validateProduct_fst, ProductParams.columns, sanitizeField,
    sanitizeText, textColumn, realColumn_of_numberOf _ _ hx, realColumn_of_numberOf _ _ hy,
    escape_eq_htmlEscaped, List.map_append, List.map_cons, List.map_nil, Product.toJson,
    List.mem_append, List.mem_singleton, or_true]

/-- C2, amended, at the request of the example scenario on the empty store:
the row is listed with id 1, the price 25 and the amount 10. -/
theorem postProducts_valid_created_and_listed_witness :
    ∃ productId tn tp td x y jx jy,
      (postProducts none none emptyStore
        ⟨JsonField.scalar (JsonScalar.string "Farmer X"),
          JsonField.scalar (JsonScalar.string "Pears"),
          JsonField.scalar (JsonScalar.number "25"), JsonField.scalar (JsonScalar.number "10"),
          JsonField.scalar (JsonScalar.string "Sweet pears")⟩).1 =
        ⟨201, Body.created "Product added successfully!" productId⟩ ∧
      IsTrimmed (JsonScalar.string "Farmer X").toStr tn ∧
      IsTrimmed (JsonScalar.string "Pears").toStr tp ∧
      IsTrimmed (JsonScalar.string "Sweet pears").toStr td ∧
      numberOf (JsonScalar.number "25").toStr = some x ∧
      numberOf (JsonScalar.number "10").toStr = some y ∧
      ListedAs x jx ∧ ListedAs y jy ∧
      ∃ rows,
        (getProducts none none
          (postProducts none none emptyStore
            ⟨JsonField.scalar (JsonScalar.string "Farmer X"),
              JsonField.scalar (JsonScalar.string "Pears"),
              JsonField.scalar (JsonScalar.number "25"),
              JsonField.scalar (JsonScalar.number "10"),
              JsonField.scalar (JsonScalar.string "Sweet pears")⟩).2).1 =
          ⟨200, Body.products rows⟩ ∧
        (⟨productId, htmlEscaped tn, htmlEscaped tp, jx, jy, htmlEscaped td⟩ : ProductJson)
          ∈ rows :=
  postProducts_valid_created_and_listed none emptyStore (JsonScalar.string "Farmer X")
    (JsonScalar.string "Pears") (JsonScalar.number "25") (JsonScalar.number "10")
    (JsonScalar.string "Sweet pears")
    ⟨'F', by decide, by decide⟩ ⟨'P', by decide, by decide⟩ (by decide) (by decide)

/-- The example scenario with blanks and markup in the name: the listing
shows the trimmed, escaped name and the numbers 25 and 10. -/
theorem postProducts_example_listed :
    (getProducts none none
      (postProducts none none emptyStore
        ⟨JsonField.str "  Farmer <X> ", JsonField.str "Pears", JsonField.num "25",
          JsonField.str "1e1", JsonField.scalar JsonScalar.null⟩).2).1.body =
      Body.products
        [⟨1, "Farmer &lt;X&gt;", "Pears", JsonValue.number (Double.finite false 25 0),
          JsonValue.number (Double.finite false 5 1), ""⟩] := by
  decide

/-- C6: a `POST /products` answered with 201 returns a `productId` that is
above every id in the products table before the request, is 1 for an empty
table and otherwise one more than an id present (so one more than the largest);
a second accepted submission that differs only in productname returns a
strictly greater `productId`. -/
theorem postProducts_productId_next (nodeEnv : Option String) (s : Store) (f : ProductForm)
    (n : JsonField)
    (h1 : (postProducts nodeEnv none s f).1.status = 201)
    (h2 : (postProducts nodeEnv none (postProducts nodeEnv none s f).2
            { f with productname := n }).1.status = 201) :
    ∃ p1 p2,
      (postProducts nodeEnv none s f).1.body = Body.created "Product added successfully!" p1 ∧
      (∀ r ∈ s.products, r.id < p1) ∧
      (s.products = [] → p1 = 1) ∧
      (s.products ≠ [] → ∃ r ∈ s.products, p1 = r.id + 1) ∧
      (postProducts nodeEnv none (postProducts nodeEnv none s f).2
          { f with productname := n }).1.body =
        Body.created "Product added successfully!" p2 ∧
      p1 < p2 := by
  have hv1 : (validateProduct f).2 = [] := by
    by_contra hne
    rw [postProducts_of_errors nodeEnv none s f hne] at h1
    simp at h1
  rw [postProducts_of_valid nodeEnv s f hv1] at h2 ⊢
  have hv2 : (validateProduct { f with productname := n }).2 = [] := by
    by_contra hne
    rw [postProducts_of_errors nodeEnv none _ _ hne] at h2
    simp at h2
  rw [postProducts_of_valid nodeEnv _ _ hv2]
  refine ⟨_, _, rfl, ?_, ?_, ?_, rfl, ?_⟩
  · intro r hr
    exact lt_nextId _ _ (List.mem_map_of_mem Product.id hr)
  · intro he
    rw [he]; rfl
  · intro hne
    have hne2 : s.products.map Product.id ≠ [] := by
      intro h0
      exact hne (List.map_eq_nil_iff.mp h0)
    obtain ⟨x, hx, hxe⟩ := nextId_of_ne_nil _ hne2
    obtain ⟨r, hr, rfl⟩ := List.mem_map.mp hx
    exact ⟨r, hr, hxe⟩
  · apply lt_nextId
    simp [insertProduct]

/-- C6 at two requests that differ in productname, on the empty store. -/
theorem postProducts_productId_next_witness :
    ∃ p1 p2,
      (postProducts none none emptyStore
        ⟨JsonField.str "Farmer X", JsonField.str "Pears", JsonField.num "25",
        JsonField.num "10", JsonField.str "Sweet pears"⟩).1.body =
          Body.created "Product added successfully!" p1 ∧
      (∀ r ∈ emptyStore.products, r.id < p1) ∧
      (emptyStore.products = [] → p1 = 1) ∧
      (emptyStore.products ≠ [] → ∃ r ∈ emptyStore.products, p1 = r.id + 1) ∧
      (postProducts none none
          (postProducts none none emptyStore
            ⟨JsonField.str "Farmer X", JsonField.str "Pears", JsonField.num "25",
        JsonField.num "10", JsonField.str "Sweet pears"⟩).2
          { (⟨JsonField.str "Farmer X", JsonField.str "Pears", JsonField.num "25",
        JsonField.num "10", JsonField.str "Sweet pears"⟩ : ProductForm) with
            productname := JsonField.str "Plums" }).1.body =
        Body.created "Product added successfully!" p2 ∧
      p1 < p2 :=
  postProducts_productId_next none emptyStore ⟨JsonField.str "Farmer X", JsonField.str "Pears", JsonField.num "25",
        JsonField.num "10", JsonField.str "Sweet pears"⟩
    (JsonField.str "Plums") (by decide) (by decide)

/-- C4: a `DELETE /cart/n` that succeeds answers 200 with the confirmation
message and leaves the cart as it was with exactly the rows named `n` taken
out (the others kept in order with their id and price), and the other tables
as they were; after an add of `n` and a delete of `n` a `GET /cart` lists no
row named `n`; and when no row is named `n` the answer is the same and the
cart is unchanged. -/
theorem deleteCart_removes_rows_named (s : Store) (n : String) (price : Option String) :
    (deleteCart none s n).1 = ⟨200, Body.message "Product removed from cart!"⟩ ∧
    (deleteCart none s n).2.cart = s.cart.filter (fun r => decide (r.productname ≠ some n)) ∧
    (deleteCart none s n).2.cart.Sublist s.cart ∧
    (∀ r, r ∈ (deleteCart none s n).2.cart ↔ r ∈ s.cart ∧ r.productname ≠ some n) ∧
    (deleteCart none s n).2.products = s.products ∧
    (deleteCart none s n).2.profiles = s.profiles ∧
    (∃ rows,
      (getCart none (deleteCart none (addToCart none s (some n) price).2 n).2).1 =
        ⟨200, Body.cart rows⟩ ∧
      ∀ r ∈ rows, r.productname ≠ some n) ∧
    ((∀ r ∈ s.cart, r.productname ≠ some n) → (deleteCart none s n).2 = s) := by
  refine ⟨rfl, rfl, ?_, ?_, rfl, rfl, ⟨_, rfl, ?_⟩, ?_⟩
  · exact List.filter_sublist _
  · intro r
    simp [deleteCart, deleteFromCart, List.mem_filter]
  · intro r hr
    simp only [deleteCart, deleteFromCart, List.mem_filter, decide_eq_true_eq] at hr
    exact hr.2
  · intro h
    have hf : s.cart.filter (fun r => decide (r.productname ≠ some n)) = s.cart := by
      rw [List.filter_eq_self]
      intro r hr
      simpa using h r hr
    simp only [deleteCart, deleteFromCart]
    rw [hf]

/-- C4 at a concrete cart: deleting a name no row carries changes nothing. -/
theorem deleteCart_removes_rows_named_witness :
    (∀ r ∈ (⟨[], [], [⟨1, some "Pears", some "25"⟩]⟩ : Store).cart,
        r.productname ≠ some "Plums") ∧
    (deleteCart none ⟨[], [], [⟨1, some "Pears", some "25"⟩]⟩ "Plums").2 =
      ⟨[], [], [⟨1, some "Pears", some "25"⟩]⟩ :=
  ⟨by decide,
   (deleteCart_removes_rows_named ⟨[], [], [⟨1, some "Pears", some "25"⟩]⟩ "Plums" none).2.2.2.2.2.2.2
     (by decide)⟩

/-- C8: a `POST /add-to-cart` that succeeds answers 200 and leaves the cart as
it was plus one new last row carrying the given productname and price, for
every productname and price (none is checked); the products and profiles
tables are unchanged; adding the same product twice gives two rows; and a
later `POST /products` leaves every cart row, its price included, as it is. -/
theorem addToCart_appends_one_row (s : Store) (productname price : Option String)
    (nodeEnv storeErr : Option String) (f : ProductForm) :
    (addToCart none s productname price).1 = ⟨200, Body.message "Product added to cart!"⟩ ∧
    (∃ newId, (addToCart none s productname price).2.cart =
        s.cart ++ [⟨newId, productname, price⟩]) ∧
    (addToCart none s productname price).2.products = s.products ∧
    (addToCart none s productname price).2.profiles = s.profiles ∧
    (∃ id1 id2,
      (addToCart none (addToCart none s productname price).2 productname price).2.cart =
        s.cart ++ [⟨id1, productname, price⟩, ⟨id2, productname, price⟩] ∧ id1 < id2) ∧
    (postProducts nodeEnv storeErr (addToCart none s productname price).2 f).2.cart =
      (addToCart none s productname price).2.cart := by
  refine ⟨rfl, ⟨_, rfl⟩, rfl, rfl,
    ⟨nextId (s.cart.map CartLine.id),
      nextId ((s.cart ++
        [(⟨nextId (s.cart.map CartLine.id), productname, price⟩ : CartLine)]).map
        CartLine.id), ?_, ?_⟩, ?_⟩
  · simp only [addToCart, insertCart, List.append_assoc, List.singleton_append]
  · apply lt_nextId
    simp
  · generalize (addToCart none s productname price).2 = t
    by_cases hv : (validateProduct f).2 = []
    · cases storeErr with
      | none => rw [postProducts_of_valid nodeEnv t f hv]; rfl
      | some m => rw [postProducts_of_store_failure nodeEnv m t f hv]
    · rw [postProducts_of_errors nodeEnv storeErr t f hv]

/-- C9: `GET /products` and `GET /cart` leave the store (all three tables) as
it is, whether the read succeeds or fails; a successful one returns the table's
rows in order (as JSON), and a second one served right after returns the same rows. -/
theorem get_routes_read_only (nodeEnv storeErr : Option String) (s : Store) :
    (getProducts nodeEnv storeErr s).2 = s ∧
    (getCart storeErr s).2 = s ∧
    (getProducts nodeEnv none s).1 = ⟨200, Body.products (s.products.map Product.toJson)⟩ ∧
    (getCart none s).1 = ⟨200, Body.cart s.cart⟩ ∧
    (getProducts nodeEnv none (getProducts nodeEnv none s).2).1 = (getProducts nodeEnv none s).1 ∧
    (getCart none (getCart none s).2).1 = (getCart none s).1 := by
  refine ⟨?_, ?_, rfl, rfl, rfl, rfl⟩
  · cases storeErr <;> rfl
  · cases storeErr <;> rfl

/-! ## Start-up -/

/-- The columns the sample products are stored with: the numbers 40, 100, 60,
50, 30 and 80 as doubles. -/
theorem sampleProducts_columns :
    sampleProducts.map ProductParams.columns =
      [⟨"Farmer John", "Carrots", SqlValue.real (Double.finite false 5 3),
          SqlValue.real (Double.finite false 25 2), "Fresh organic carrots"⟩,
       ⟨"Farmer Jane", "Apples", SqlValue.real (Double.finite false 15 2),
          SqlValue.real (Double.finite false 25 1), "Crisp and juicy apples"⟩,
       ⟨"Farmer Joe", "Tomatoes", SqlValue.real (Double.finite false 15 1),
          SqlValue.real (Double.finite false 5 4), "Ripe red tomatoes"⟩] := by
  decide

theorem insertProduct_products (s : Store) (p : ProductParams) :
    (insertProduct s p).2.products = s.products ++
      [⟨nextId (s.products.map Product.id), p.columns.name, p.columns.productname,
        p.columns.priceperkg_l, p.columns.amountkg_l, p.columns.description⟩] := rfl

theorem startup_products_eq (s : Store) :
    (startup s).products = s.products ++
      [⟨nextId (s.products.map Product.id),
          "Farmer John", "Carrots", SqlValue.real (Double.finite false 5 3),
          SqlValue.real (Double.finite false 25 2), "Fresh organic carrots"⟩,
       ⟨nextId (s.products.map Product.id ++ [nextId (s.products.map Product.id)]),
          "Farmer Jane", "Apples", SqlValue.real (Double.finite false 15 2),
          SqlValue.real (Double.finite false 25 1), "Crisp and juicy apples"⟩,
       ⟨nextId (s.products.map Product.id ++ [nextId (s.products.map Product.id)] ++
            [nextId (s.products.map Product.id ++ [nextId (s.products.map Product.id)])]),
          "Farmer Joe", "Tomatoes", SqlValue.real (Double.finite false 15 1),
          SqlValue.real (Double.finite false 5 4), "Ripe red tomatoes"⟩] := by
  have hc := sampleProducts_columns
  simp only [sampleProducts, List.map_cons, List.map_nil, List.cons.injEq, and_true] at hc
  obtain ⟨h1, h2, h3⟩ := hc
  simp only [startup, sampleProducts, List.foldl_cons, List.foldl_nil, insertProduct_products,
    h1, h2, h3, List.map_append, List.map_cons, List.map_nil, List.append_assoc,
    List.singleton_append, List.cons_append, List.nil_append]

theorem startup_products (s : Store) :
    (startup s).products.map Product.columns =
      s.products.map Product.columns ++ sampleProducts.map ProductParams.columns := by
  rw [startup_products_eq, sampleProducts_columns]
  simp [Product.columns]

theorem startup_profiles (s : Store) : (startup s).profiles = s.profiles := rfl

theorem startup_cart (s : Store) : (startup s).cart = s.cart := rfl

theorem flatten_replicate_succ_right {α : Type} (k : Nat) (l : List α) :
    (List.replicate (k + 1) l).flatten = (List.replicate k l).flatten ++ l := by
  rw [List.replicate_succ', List.flatten_append]
  simp

theorem iterate_startup_profiles (k : Nat) : ((startup^[k]) emptyStore).profiles = [] := by
  induction k with
  | zero => rfl
  | succ n ih => rw [Function.iterate_succ_apply', startup_profiles, ih]

theorem iterate_startup_cart (k : Nat) : ((startup^[k]) emptyStore).cart = [] := by
  induction k with
  | zero => rfl
  | succ n ih => rw [Function.iterate_succ_apply', startup_cart, ih]

theorem iterate_startup_products (k : Nat) :
    ((startup^[k]) emptyStore).products.map Product.columns =
      (List.replicate k (sampleProducts.map ProductParams.columns)).flatten := by
  induction k with
  | zero => rfl
  | succ n ih =>
    rw [Function.iterate_succ_apply', startup_products, ih, flatten_replicate_succ_right]

theorem count_flatten_replicate (p : ProductColumns) (k : Nat) (l : List ProductColumns) :
    List.count p (List.replicate k l).flatten = k * List.count p l := by
  induction k with
  | zero => simp
  | succ n ih =>
    rw [List.replicate_succ, List.flatten_cons, List.count_append, ih]
    ring

/-- C10: a process start keeps the profiles and cart tables and the rows of the
products table, and appends the three sample products in their order with
fresh increasing ids, without looking at what the table holds; after `k`
starts on an empty store the products table holds the sample products `k`
times over: `3 * k` rows, each sample product `k` times.  (The prices and
amounts 40, 100, 60, 50, 30, 80 are written as doubles: `5 * 2^3`, `25 * 2^2`,
`15 * 2^2`, `25 * 2`, `15 * 2`, `5 * 2^4`.) -/
theorem startup_appends_samples (s : Store) (k : Nat) :
    (startup s).profiles = s.profiles ∧
    (startup s).cart = s.cart ∧
    (∃ a b c, (startup s).products = s.products ++
        [⟨a, "Farmer John", "Carrots", SqlValue.real (Double.finite false 5 3),
            SqlValue.real (Double.finite false 25 2), "Fresh organic carrots"⟩,
         ⟨b, "Farmer Jane", "Apples", SqlValue.real (Double.finite false 15 2),
            SqlValue.real (Double.finite false 25 1), "Crisp and juicy apples"⟩,
         ⟨c, "Farmer Joe", "Tomatoes", SqlValue.real (Double.finite false 15 1),
            SqlValue.real (Double.finite false 5 4), "Ripe red tomatoes"⟩] ∧
      (∀ r ∈ s.products, r.id < a) ∧ a < b ∧ b < c) ∧
    ((startup^[k]) emptyStore).profiles = [] ∧
    ((startup^[k]) emptyStore).cart = [] ∧
    ((startup^[k]) emptyStore).products.map Product.columns =
      (List.replicate k (sampleProducts.map ProductParams.columns)).flatten ∧
    ((startup^[k]) emptyStore).products.length = 3 * k ∧
    (∀ p ∈ sampleProducts.map ProductParams.columns,
      List.count p (((startup^[k]) emptyStore).products.map Product.columns) = k) := by
  have hlen : ((startup^[k]) emptyStore).products.length = 3 * k := by
    have h := congrArg List.length (iterate_startup_products k)
    rw [List.length_map] at h
    rw [h]
    clear h
    induction k with
    | zero => rfl
    | succ n ih =>
      rw [flatten_replicate_succ_right, List.length_append, ih]
      simp [sampleProducts]
      ring
  refine ⟨rfl, rfl, ?_, ?_, ?_, iterate_startup_products k, hlen, ?_⟩
  · refine ⟨_, _, _, startup_products_eq s, ?_, ?_, ?_⟩
    · intro r hr
      exact lt_nextId _ _ (List.mem_map_of_mem Product.id hr)
    · apply lt_nextId; simp
    · apply lt_nextId; simp
  · exact iterate_startup_profiles k
  · exact iterate_startup_cart k
  · intro p hp
    rw [iterate_startup_products, count_flatten_replicate]
    have h1 : List.count p (sampleProducts.map ProductParams.columns) = 1 := by
      rw [sampleProducts_columns] at hp ⊢
      simp only [List.mem_cons, List.mem_singleton, List.not_mem_nil, or_false] at hp
      rcases hp with rfl | rfl | rfl <;> decide
    rw [h1, Nat.mul_one]

/-! ## Rowids along a run -/

/-- What a route can do to the store: nothing, one insert, or the delete. -/
theorem handle_store_cases (nodeEnv storeErr : Option String) (s : Store) (req : Request) :
    (handle nodeEnv storeErr s req).2 = s ∨
    (∃ f, (handle nodeEnv storeErr s req).2 = insertProfile s f) ∨
    (∃ f, (handle nodeEnv storeErr s req).2 = (insertProduct s f).2) ∨
    (∃ n p, (handle nodeEnv storeErr s req).2 = insertCart s n p) ∨
    (∃ n, (handle nodeEnv storeErr s req).2 = deleteFromCart s n) := by
  cases req with
  | submitProfile f =>
    cases storeErr with
    | none => exact Or.inr (Or.inl ⟨f, rfl⟩)
    | some m => exact Or.inl rfl
  | postProducts f =>
    by_cases hv : (validateProduct f).2 = []
    · cases storeErr with
      | none =>
        refine Or.inr (Or.inr (Or.inl ⟨(validateProduct f).1, ?_⟩))
        simp only [handle]
        rw [postProducts_of_valid nodeEnv s f hv]
      | some m =>
        left
        simp only [handle]
        rw [postProducts_of_store_failure nodeEnv m s f hv]
    · left
      simp only [handle]
      rw [postProducts_of_errors nodeEnv storeErr s f hv]
  | getProducts => cases storeErr <;> exact Or.inl rfl
  | addToCart n p =>
    cases storeErr with
    | none => exact Or.inr (Or.inr (Or.inr (Or.inl ⟨n, p, rfl⟩)))
    | some m => exact Or.inl rfl
  | getCart => cases storeErr <;> exact Or.inl rfl
  | deleteCart n =>
    cases storeErr with
    | none => exact Or.inr (Or.inr (Or.inr (Or.inr ⟨n, rfl⟩)))
    | some m => exact Or.inl rfl

theorem handle_idsIncreasing (nodeEnv storeErr : Option String) (s : Store) (req : Request)
    (h : IdsIncreasing s) : IdsIncreasing (handle nodeEnv storeErr s req).2 := by
  obtain ⟨h1, h2, h3⟩ := h
  rcases handle_store_cases nodeEnv storeErr s req with
    e | ⟨f, e⟩ | ⟨f, e⟩ | ⟨n, p, e⟩ | ⟨n, e⟩ <;> rw [e]
  · exact ⟨h1, h2, h3⟩
  · refine ⟨?_, h2, h3⟩
    simpa [insertProfile] using pairwise_append_nextId _ h1
  · refine ⟨h1, ?_, h3⟩
    simpa [insertProduct] using pairwise_append_nextId _ h2
  · refine ⟨h1, h2, ?_⟩
    simpa [insertCart] using pairwise_append_nextId _ h3
  · refine ⟨h1, h2, ?_⟩
    exact List.Pairwise.sublist ((List.filter_sublist _).map CartLine.id) h3

theorem run_idsIncreasing (nodeEnv : Option String) (trace : List (Request × Option String))
    (s : Store) (h : IdsIncreasing s) : IdsIncreasing (run nodeEnv s trace) := by
  induction trace generalizing s with
  | nil => exact h
  | cons a rest ih =>
    obtain ⟨req, storeErr⟩ := a
    exact ih _ (handle_idsIncreasing nodeEnv storeErr s req h)

theorem handle_fresh_ids (nodeEnv storeErr : Option String) (s : Store) (req : Request) :
    (∀ r ∈ (handle nodeEnv storeErr s req).2.profiles,
      r ∈ s.profiles ∨ ∀ r0 ∈ s.profiles, r0.id < r.id) ∧
    (∀ r ∈ (handle nodeEnv storeErr s req).2.products,
      r ∈ s.products ∨ ∀ r0 ∈ s.products, r0.id < r.id) ∧
    (∀ r ∈ (handle nodeEnv storeErr s req).2.cart,
      r ∈ s.cart ∨ ∀ r0 ∈ s.cart, r0.id < r.id) := by
  rcases handle_store_cases nodeEnv storeErr s req with
    e | ⟨f, e⟩ | ⟨f, e⟩ | ⟨n, p, e⟩ | ⟨n, e⟩ <;> rw [e]
  · exact ⟨fun r hr => Or.inl hr, fun r hr => Or.inl hr, fun r hr => Or.inl hr⟩
  · refine ⟨?_, fun r hr => Or.inl hr, fun r hr => Or.inl hr⟩
    intro r hr
    simp only [insertProfile, List.mem_append, List.mem_singleton] at hr
    rcases hr with hr | rfl
    · exact Or.inl hr
    · exact Or.inr (fun r0 h0 => lt_nextId _ _ (List.mem_map_of_mem Profile.id h0))
  · refine ⟨fun r hr => Or.inl hr, ?_, fun r hr => Or.inl hr⟩
    intro r hr
    simp only [insertProduct, List.mem_append, List.mem_singleton] at hr
    rcases hr with hr | rfl
    · exact Or.inl hr
    · exact Or.inr (fun r0 h0 => lt_nextId _ _ (List.mem_map_of_mem Product.id h0))
  · refine ⟨fun r hr => Or.inl hr, fun r hr => Or.inl hr, ?_⟩
    intro r hr
    simp only [insertCart, List.mem_append, List.mem_singleton] at hr
    rcases hr with hr | rfl
    · exact Or.inl hr
    · exact Or.inr (fun r0 h0 => lt_nextId _ _ (List.mem_map_of_mem CartLine.id h0))
  · refine ⟨fun r hr => Or.inl hr, fun r hr => Or.inl hr, ?_⟩
    intro r hr
    exact Or.inl (List.mem_of_mem_filter hr)

theorem handle_grows (nodeEnv storeErr : Option String) (s : Store) (req : Request) :
    (∃ l, (handle nodeEnv storeErr s req).2.profiles = s.profiles ++ l) ∧
    (∃ l, (handle nodeEnv storeErr s req).2.products = s.products ++ l) := by
  rcases handle_store_cases nodeEnv storeErr s req with
    e | ⟨f, e⟩ | ⟨f, e⟩ | ⟨n, p, e⟩ | ⟨n, e⟩ <;> rw [e]
  · exact ⟨⟨[], by simp⟩, ⟨[], by simp⟩⟩
  · exact ⟨⟨_, rfl⟩, ⟨[], by simp [insertProfile]⟩⟩
  · exact ⟨⟨[], by simp [insertProduct]⟩, ⟨_, rfl⟩⟩
  · exact ⟨⟨[], by simp [insertCart]⟩, ⟨[], by simp [insertCart]⟩⟩
  · exact ⟨⟨[], by simp [deleteFromCart]⟩, ⟨[], by simp [deleteFromCart]⟩⟩

theorem run_grows (nodeEnv : Option String) (trace : List (Request × Option String))
    (s : Store) :
    (∃ l, (run nodeEnv s trace).profiles = s.profiles ++ l) ∧
    (∃ l, (run nodeEnv s trace).products = s.products ++ l) := by
  induction trace generalizing s with
  | nil => exact ⟨⟨[], by simp [run]⟩, ⟨[], by simp [run]⟩⟩
  | cons a rest ih =>
    obtain ⟨req, storeErr⟩ := a
    obtain ⟨⟨l1, h1⟩, ⟨l2, h2⟩⟩ := handle_grows nodeEnv storeErr s req
    obtain ⟨⟨m1, g1⟩, ⟨m2, g2⟩⟩ := ih (handle nodeEnv storeErr s req).2
    refine ⟨⟨l1 ++ m1, ?_⟩, ⟨l2 ++ m2, ?_⟩⟩
    · simp only [run]; rw [g1, h1, List.append_assoc]
    · simp only [run]; rw [g2, h2, List.append_assoc]

/-- C5, against the claim: on the empty store, adding `a` to the cart assigns
id 1, deleting `a` empties the cart, and adding `b` assigns id 1 again: the
second insert does not receive an id above the one assigned before. -/
theorem cart_id_assigned_twice :
    (addToCart none emptyStore (some "a") (some "1")).2.cart = [⟨1, some "a", some "1"⟩] ∧
    (deleteCart none (addToCart none emptyStore (some "a") (some "1")).2 "a").2.cart = [] ∧
    (addToCart none
        (deleteCart none (addToCart none emptyStore (some "a") (some "1")).2 "a").2
        (some "b") (some "2")).2.cart = [⟨1, some "b", some "2"⟩] ∧
    ¬ (∀ r ∈ (addToCart none
          (deleteCart none (addToCart none emptyStore (some "a") (some "1")).2 "a").2
          (some "b") (some "2")).2.cart,
        ∀ r0 ∈ (addToCart none emptyStore (some "a") (some "1")).2.cart, r0.id < r.id) := by
  decide

/-- C5, amended: from a store whose tables have strictly increasing ids, after
any sequence of requests every table still has strictly increasing (so
pairwise distinct) ids, and a row that the next request inserts has an id
above every id its table holds at that moment; the products and profiles
tables only ever grow, so there an id is never assigned twice. -/
theorem inserted_id_above_ids_present (nodeEnv storeErr : Option String) (s : Store)
    (trace : List (Request × Option String)) (req : Request) (h : IdsIncreasing s) :
    IdsIncreasing (run nodeEnv s trace) ∧
    IdsIncreasing (handle nodeEnv storeErr (run nodeEnv s trace) req).2 ∧
    (∀ r ∈ (handle nodeEnv storeErr (run nodeEnv s trace) req).2.profiles,
      r ∈ (run nodeEnv s trace).profiles ∨
        ∀ r0 ∈ (run nodeEnv s trace).profiles, r0.id < r.id) ∧
    (∀ r ∈ (handle nodeEnv storeErr (run nodeEnv s trace) req).2.products,
      r ∈ (run nodeEnv s trace).products ∨
        ∀ r0 ∈ (run nodeEnv s trace).products, r0.id < r.id) ∧
    (∀ r ∈ (handle nodeEnv storeErr (run nodeEnv s trace) req).2.cart,
      r ∈ (run nodeEnv s trace).cart ∨ ∀ r0 ∈ (run nodeEnv s trace).cart, r0.id < r.id) ∧
    (∃ l, (run nodeEnv s trace).profiles = s.profiles ++ l) ∧
    (∃ l, (run nodeEnv s trace).products = s.products ++ l) := by
  have hr := run_idsIncreasing nodeEnv trace s h
  obtain ⟨f1, f2, f3⟩ := handle_fresh_ids nodeEnv storeErr (run nodeEnv s trace) req
  obtain ⟨g1, g2⟩ := run_grows nodeEnv trace s
  exact ⟨hr, handle_idsIncreasing nodeEnv storeErr _ req hr, f1, f2, f3, g1, g2⟩

/-- C5, amended, at a concrete run: two adds and a delete on the empty store,
then one more add. -/
theorem inserted_id_above_ids_present_witness :
    IdsIncreasing emptyStore ∧
    IdsIncreasing (handle none none
      (run none emptyStore
        [(Request.addToCart (some "a") (some "1"), none),
         (Request.addToCart (some "b") (some "2"), none),
         (Request.deleteCart "a", none)])
      (Request.addToCart (some "c") (some "3"))).2 :=
  ⟨⟨List.Pairwise.nil, List.Pairwise.nil, List.Pairwise.nil⟩,
   (inserted_id_above_ids_present none none emptyStore
      [(Request.addToCart (some "a") (some "1"), none),
       (Request.addToCart (some "b") (some "2"), none),
       (Request.deleteCart "a", none)]
      (Request.addToCart (some "c") (some "3"))
      ⟨List.Pairwise.nil, List.Pairwise.nil, List.Pairwise.nil⟩).2.1⟩

/-! ## Store failures -/

/-- C3, against the claim: with `NODE_ENV` unset, `POST /submit-profile`,
`POST /add-to-cart`, `GET /cart` and `DELETE /cart/:productname` answer two
store failures that differ only in the error message with different bodies,
each carrying the store's message; and with `NODE_ENV` set to `development`
`GET /products`, which is not the product-creation route, carries the store's
message too. -/
theorem store_message_reaches_client :
    (handle none (some "SQLITE_FULL") emptyStore
        (Request.submitProfile ⟨none, none, none, none, none, none, none⟩)).1.body ≠
      (handle none (some "SQLITE_BUSY") emptyStore
        (Request.submitProfile ⟨none, none, none, none, none, none, none⟩)).1.body ∧
    (handle none (some "SQLITE_FULL") emptyStore (Request.addToCart none none)).1.body ≠
      (handle none (some "SQLITE_BUSY") emptyStore (Request.addToCart none none)).1.body ∧
    (handle none (some "SQLITE_FULL") emptyStore (Request.addToCart none none)).1.body =
      Body.failure "SQLITE_FULL" none ∧
    (handle none (some "SQLITE_FULL") emptyStore Request.getCart).1.body ≠
      (handle none (some "SQLITE_BUSY") emptyStore Request.getCart).1.body ∧
    (handle none (some "SQLITE_FULL") emptyStore (Request.deleteCart "a")).1.body ≠
      (handle none (some "SQLITE_BUSY") emptyStore (Request.deleteCart "a")).1.body ∧
    (handle (some "development") (some "SQLITE_FULL") emptyStore Request.getProducts).1.body =
      Body.failure "Internal server error" (some "SQLITE_FULL") := by
  decide

/-- C3, amended: when the store statement of a request fails, the answer has
status 500 and the store is left as it was, on each of the six routes; on
`POST /products` and `GET /products` the body is the fixed message
`Internal server error`, with the store's message as `details` exactly when
`NODE_ENV` is `development`, so that with any other `NODE_ENV` two failures
that differ only in the store's message get the same answer on these two
routes. -/
theorem store_failure_answers (nodeEnv : Option String) (m m2 : String) (s : Store)
    (req : Request) (f : ProductForm)
    (hreach : ∀ g, req = Request.postProducts g → (validateProduct g).2 = [])
    (hf : (validateProduct f).2 = []) :
    (handle nodeEnv (some m) s req).1.status = 500 ∧
    (handle nodeEnv (some m) s req).2 = s ∧
    (handle nodeEnv (some m) s (Request.postProducts f)).1.body =
      Body.failure "Internal server error"
        (if nodeEnv = some "development" then some m else none) ∧
    (handle nodeEnv (some m) s Request.getProducts).1.body =
      Body.failure "Internal server error"
        (if nodeEnv = some "development" then some m else none) ∧
    (nodeEnv ≠ some "development" →
      (handle nodeEnv (some m) s (Request.postProducts f)).1 =
        (handle nodeEnv (some m2) s (Request.postProducts f)).1 ∧
      (handle nodeEnv (some m) s Request.getProducts).1 =
        (handle nodeEnv (some m2) s Request.getProducts).1) := by
  have hp : ∀ x : String, handle nodeEnv (some x) s (Request.postProducts f) =
      (⟨500, Body.failure "Internal server error" (details nodeEnv x)⟩, s) := by
    intro x
    simp only [handle]
    exact postProducts_of_store_failure nodeEnv x s f hf
  refine ⟨?_, ?_, ?_, rfl, ?_⟩
  · cases req with
    | postProducts g =>
      simp only [handle]
      rw [postProducts_of_store_failure nodeEnv m s g (hreach g rfl)]
    | _ => rfl
  · cases req with
    | postProducts g =>
      simp only [handle]
      rw [postProducts_of_store_failure nodeEnv m s g (hreach g rfl)]
    | _ => rfl
  · rw [hp m]; rfl
  · intro hdev
    rw [hp m, hp m2]
    simp [handle, getProducts, details, hdev]

/-- C3, amended, at a concrete failure: the product of the example scenario,
the store failing with `SQLITE_FULL`, `NODE_ENV` unset. -/
theorem store_failure_answers_witness :
    (validateProduct ⟨JsonField.str "Farmer X", JsonField.str "Pears", JsonField.num "25",
        JsonField.num "10", JsonField.str "Sweet pears"⟩).2 = [] ∧
    (handle none (some "SQLITE_FULL") emptyStore
      (Request.postProducts ⟨JsonField.str "Farmer X", JsonField.str "Pears", JsonField.num "25",
        JsonField.num "10", JsonField.str "Sweet pears"⟩)).1.status = 500 ∧
    (handle none (some "SQLITE_FULL") emptyStore
        (Request.postProducts ⟨JsonField.str "Farmer X", JsonField.str "Pears", JsonField.num "25",
        JsonField.num "10", JsonField.str "Sweet pears"⟩)).1 =
      (handle none (some "SQLITE_BUSY") emptyStore
        (Request.postProducts ⟨JsonField.str "Farmer X", JsonField.str "Pears", JsonField.num "25",
        JsonField.num "10", JsonField.str "Sweet pears"⟩)).1 :=
  ⟨by decide,
   (store_failure_answers none "SQLITE_FULL" "SQLITE_BUSY" emptyStore
      (Request.postProducts ⟨JsonField.str "Farmer X", JsonField.str "Pears", JsonField.num "25",
        JsonField.num "10", JsonField.str "Sweet pears"⟩)
      ⟨JsonField.str "Farmer X", JsonField.str "Pears", JsonField.num "25",
        JsonField.num "10", JsonField.str "Sweet pears"⟩
      (fun g hg => by cases hg; decide) (by decide)).1,
   ((store_failure_answers none "SQLITE_FULL" "SQLITE_BUSY" emptyStore
      (Request.postProducts ⟨JsonField.str "Farmer X", JsonField.str "Pears", JsonField.num "25",
        JsonField.num "10", JsonField.str "Sweet pears"⟩)
      ⟨JsonField.str "Farmer X", JsonField.str "Pears", JsonField.num "25",
        JsonField.num "10", JsonField.str "Sweet pears"⟩
      (fun g hg => by cases hg; decide) (by decide)).2.2.2.2 (by decide)).1⟩

end FarmConnect
